import Mathlib

/-!
Shallow embedding of the Haystack RAG repository.

The repository wires off-the-shelf pipeline components (PDF conversion,
cleaning, splitting, embedding, retrieval, generation) and persists state
as JSON. The embedding below translates the repository's own logic:

* `store_dict_as_json` and `load_json_as_dict` from
  `raghaystack/utils/__init__.py`, with Python `dict` values modelled as
  association lists of string keys (a parsed JSON object) and Python
  `dict.update` modelled by `pyUpdate` (existing keys are overwritten in
  place, new keys are appended in the order they occur in the update);
* the constants module `raghaystack/constants/__init__.py`;
* `DataIngestion` from `raghaystack/components/data_ingestion.py` and its
  divergent duplicate in `rag-haystack/components/data_ingestion.py`
  (embedded as `DataIngestionAlt`);
* `Inference` from `raghaystack/components/inference.py` and the module's
  `__main__` entry point.

The filesystem is modelled explicitly: the JSON state file as an
`Option` of its parsed content, and the document-store snapshot area as a
record `FS` of existing directories and files keyed by
(directory, filename) pairs (the pair models `os.path.join`).  External
library calls that touch the filesystem (`save_to_disk`,
`load_from_disk`, `open`) are modelled by their documented contract:
opening a path whose file or parent directory is missing raises
`FileNotFoundError`; a snapshot write stores the serialized documents and
a snapshot read returns them.
-/

/-- Parsed JSON value, as produced by Python `json.load`. -/
inductive Json where
  | null : Json
  | bool (b : Bool) : Json
  | num (n : Int) : Json
  | str (s : String) : Json
  | arr (elems : List Json) : Json
  | obj (fields : List (String × Json)) : Json

/-- Content of a parsed JSON object / Python dictionary: an ordered list of
string-keyed fields. -/
abbrev JObj := List (String × Json)

/-- Python exceptions raised by the code paths modelled here. -/
inductive PyError where
  | fileNotFoundError (path : String) : PyError
  | typeError (msg : String) : PyError
  | keyError (key : String) : PyError
  | importError (name : String) : PyError
deriving DecidableEq

/-- Value of a key in a parsed JSON object (Python `d[k]` / `k in d`):
the first field with that key, if any. -/
def getVal (d : JObj) (k : String) : Option Json :=
  match d with
  | [] => none
  | (k1, v) :: rest => if k1 = k then some v else getVal rest k

/-- Replacement applied to each entry when an existing key is assigned:
the entry with the assigned key gets the new value, the rest stay. -/
def replaceEntry (k : String) (v : Json) (kv : String × Json) :
    String × Json :=
  if kv.1 = k then (k, v) else kv

/-- One step of Python `dict.update`: assign `d[k] = v`.  If the key is
present its value is replaced in place; otherwise the pair is appended. -/
def setKey (d : JObj) (k : String) (v : Json) : JObj :=
  if (getVal d k).isSome then
    d.map (replaceEntry k v)
  else
    d ++ [(k, v)]

/-- Python `d.update(u)`: assign every pair of `u` into `d`, in order. -/
def pyUpdate (d : JObj) (u : JObj) : JObj :=
  match u with
  | [] => d
  | (k, v) :: rest => pyUpdate (setKey d k v) rest

/-- The fixed-key record with empty-string values that
`store_dict_as_json` writes when no file exists at the path
(`raghaystack/utils/__init__.py`, lines 15-27). -/
def initRecord : JObj :=
  [("store_path", Json.str ""),
   ("document_store", Json.str ""),
   ("converter", Json.str ""),
   ("embedder", Json.str ""),
   ("cleaner", Json.str ""),
   ("splitter", Json.str "")]

/-- Embedding of `store_dict_as_json(dictionary, filename)` from
`raghaystack/utils/__init__.py`.  The argument `file` is the content of
the file at `filename` (`none` when no file exists).  The function first
writes `initRecord` when the file is absent, then reads the file back,
applies `state_dict.update(dictionary)` and writes the merged object;
the returned value is the final file content. -/
def store_dict_as_json (dictionary : JObj) (file : Option JObj) : JObj :=
  let onDisk := match file with
    | none => initRecord
    | some c => c
  pyUpdate onDisk dictionary

/-- File content at the state path after a sequence of
`store_dict_as_json` calls, starting from the given content. -/
def runCalls (updates : List JObj) (file : Option JObj) : Option JObj :=
  updates.foldl (fun f u => some (store_dict_as_json u f)) file

/-- Python `open(filename, "r")` followed by `json.load`: raises
`FileNotFoundError` when no file exists, otherwise yields the parsed
content (modelled as already parsed). -/
def pyOpenRead (filename : String) (file : Option Json) : Except PyError Json :=
  match file with
  | none => Except.error (PyError.fileNotFoundError filename)
  | some j => Except.ok j

/-- Embedding of `load_json_as_dict(filename)` from
`raghaystack/utils/__init__.py`: the `try` block reads and parses the
file; the `except FileNotFoundError` clause prints a diagnostic and
returns `None`.  The result pairs the returned value (`Except.error`
would mean an uncaught exception) with the list of printed lines. -/
def load_json_as_dict (filename : String) (file : Option Json) :
    Except PyError (Option Json) × List String :=
  match pyOpenRead filename file with
  | Except.ok j => (Except.ok (some j), [])
  | Except.error (PyError.fileNotFoundError _) =>
      (Except.ok none, ["File \x27" ++ filename ++ "\x27 not found."])
  | Except.error e => (Except.error e, [])

/-- Constant `DOCUMENT_STORE_NAME` from `raghaystack/constants/__init__.py`. -/
def DOCUMENT_STORE_NAME : String := "document_store.json"

/-- Constant `DOCUMENT_STORE_PATH = os.path.join("artifacts", TIMESTAMP)`
from `raghaystack/constants/__init__.py`.  `TIMESTAMP` is the process
start time formatted as a string; it is passed as a parameter since wall
clock time is external input. -/
def DOCUMENT_STORE_PATH (TIMESTAMP : String) : String :=
  "artifacts/" ++ TIMESTAMP

/-- Modelled from the spec: the fixed JSON path of the persisted state
record ("state record written to a fixed JSON path").  The name
`INDEX_STATE_JSON_PATH` is imported by
`raghaystack/components/inference.py` but is not defined anywhere in the
repository (the constants module defines only `TIMESTAMP`,
`DOCUMENT_STORE_PATH` and `DOCUMENT_STORE_NAME`). -/
def INDEX_STATE_JSON_PATH : String := "artifacts/index_state.json"

/-- One retrievable unit of text held by the document store.  The
embedding vector is an ordered sequence of numeric values; no arithmetic
is performed on it by the repository's code. -/
structure Document where
  id : String
  content : String
  embedding : Option (List Rat)
  meta : List (String × Json)

/-- The in-memory document store, modelled by the list of documents it
holds (the haystack `InMemoryDocumentStore`). -/
structure InMemoryDocumentStore where
  docs : List Document

/-- Filesystem state for the snapshot area: the set of existing
directories, and the files keyed by (directory, filename) with their
deserialized snapshot content.  More recent writes are consed in front. -/
structure FS where
  dirs : List String
  files : List ((String × String) × List Document)

/-- First (most recent) file entry at a path. -/
def fsRead (files : List ((String × String) × List Document))
    (p : String × String) : Option (List Document) :=
  match files with
  | [] => none
  | (q, ds) :: rest => if q = p then some ds else fsRead rest p

/-- External library operation `InMemoryDocumentStore.save_to_disk`,
modelled by its contract: serialize the store's documents to the file at
(dir, name).  `open(path, "w")` raises `FileNotFoundError` when the
parent directory does not exist. -/
def InMemoryDocumentStore.save_to_disk (store : InMemoryDocumentStore)
    (dir name : String) (fs : FS) : Except PyError FS :=
  if dir ∈ fs.dirs then
    Except.ok { fs with files := ((dir, name), store.docs) :: fs.files }
  else
    Except.error (PyError.fileNotFoundError (dir ++ "/" ++ name))

/-- External library operation `InMemoryDocumentStore.load_from_disk`,
modelled by its contract: read the snapshot at (dir, name) and return a
fresh store holding exactly the serialized documents; raises
`FileNotFoundError` when no file exists there. -/
def InMemoryDocumentStore.load_from_disk (dir name : String) (fs : FS) :
    Except PyError InMemoryDocumentStore :=
  match fsRead fs.files (dir, name) with
  | some ds => Except.ok ⟨ds⟩
  | none => Except.error (PyError.fileNotFoundError (dir ++ "/" ++ name))

/-- Embedding of `DataIngestion.save_ds` from
`raghaystack/components/data_ingestion.py`: join the store path, create
the directory when it does not exist (`os.makedirs`), save the store
there, and return the store path. -/
def DataIngestion.save_ds (store : InMemoryDocumentStore)
    (TIMESTAMP : String) (fs : FS) :
    Except PyError (FS × (String × String)) :=
  let dir := DOCUMENT_STORE_PATH TIMESTAMP
  let fs1 := if dir ∈ fs.dirs then fs else { fs with dirs := dir :: fs.dirs }
  match store.save_to_disk dir DOCUMENT_STORE_NAME fs1 with
  | Except.ok fs2 => Except.ok (fs2, (dir, DOCUMENT_STORE_NAME))
  | Except.error e => Except.error e

/-- Embedding of `DataIngestion.load_ds` from
`raghaystack/components/data_ingestion.py`:
`InMemoryDocumentStore().load_from_disk(path)`. -/
def DataIngestion.load_ds (path : String × String) (fs : FS) :
    Except PyError InMemoryDocumentStore :=
  InMemoryDocumentStore.load_from_disk path.1 path.2 fs

/-- Embedding of `DataIngestion.save_ds` from the duplicate driver
`rag-haystack/components/data_ingestion.py`:
`self.document_store.save_to_disk("./artifacts/document_store")`, with
no directory creation. -/
def DataIngestionAlt.save_ds (store : InMemoryDocumentStore) (fs : FS) :
    Except PyError FS :=
  store.save_to_disk "./artifacts" "document_store" fs

/-- Pipeline container: the registered component names and the declared
directed edges, in declaration order (the component and port objects
themselves are external library values and carry no repository logic). -/
structure Pipeline where
  components : List String
  connections : List (String × String)

/-- Register a component under a name (`Pipeline.add_component`). -/
def Pipeline.add_component (p : Pipeline) (name : String) : Pipeline :=
  { p with components := p.components ++ [name] }

/-- Declare a directed edge between two (possibly port-qualified) stage
names (`Pipeline.connect`). -/
def Pipeline.connect (p : Pipeline) (sender receiver : String) : Pipeline :=
  { p with connections := p.connections ++ [(sender, receiver)] }

/-- Embedding of `DataIngestion.get_indexing_pipeline` from
`raghaystack/components/data_ingestion.py`: the component registrations
and edge declarations it performs, in source order. -/
def DataIngestion.get_indexing_pipeline : Pipeline :=
  Pipeline.mk [] []
    |>.add_component "converter"
    |>.add_component "cleaner"
    |>.add_component "splitter"
    |>.add_component "embedder"
    |>.add_component "writer"
    |>.connect "converter" "cleaner"
    |>.connect "cleaner" "splitter"
    |>.connect "splitter" "embedder"
    |>.connect "embedder" "writer"

/-- Embedding of `Inference.get_pipeline` from
`raghaystack/components/inference.py`: the component registrations and
edge declarations it performs, in source order. -/
def Inference.get_pipeline : Pipeline :=
  Pipeline.mk [] []
    |>.add_component "retriever"
    |>.add_component "query_embedder"
    |>.add_component "prompt_builder"
    |>.add_component "llm"
    |>.connect "query_embedder.embedding" "retriever.query_embedding"
    |>.connect "retriever.documents" "prompt_builder.documents"
    |>.connect "prompt_builder" "llm.prompt"

/-- The store-loading step of `Inference.__init__` from
`raghaystack/components/inference.py`:
`InMemoryDocumentStore().load_from_disk(doc_store_path)`.  This is the
only fallible part of construction modelled here; the remaining
statements build external component objects. -/
def Inference.init (doc_store_path : String × String) (fs : FS) :
    Except PyError InMemoryDocumentStore :=
  InMemoryDocumentStore.load_from_disk doc_store_path.1 doc_store_path.2 fs

/-- Python subscription `r[k]` where `r` is the value returned by
`load_json_as_dict`: subscripting `None` raises `TypeError`; a missing
key raises `KeyError`; a non-object value raises `TypeError`. -/
def pySubscript (r : Option Json) (k : String) : Except PyError Json :=
  match r with
  | none => Except.error
      (PyError.typeError "\x27NoneType\x27 object is not subscriptable")
  | some (Json.obj fields) =>
      match getVal fields k with
      | some v => Except.ok v
      | none => Except.error (PyError.keyError k)
  | some _ => Except.error
      (PyError.typeError "object is not subscriptable")

/-- The state-record reading steps of the `__main__` entry point of
`raghaystack/components/inference.py`:
`index_state = load_json_as_dict(INDEX_STATE_JSON_PATH)` followed by
`index_state["store_path"]`.  The argument is the content of the state
file; the result is the store path handed to `Inference`, or the raised
exception. -/
def inferenceMain (stateFile : Option Json) : Except PyError Json :=
  match (load_json_as_dict INDEX_STATE_JSON_PATH stateFile).1 with
  | Except.error e => Except.error e
  | Except.ok r => pySubscript r "store_path"

/-- Names defined at top level by `raghaystack/constants/__init__.py`. -/
def constantsModuleExports : List String :=
  ["TIMESTAMP", "DOCUMENT_STORE_PATH", "DOCUMENT_STORE_NAME"]

/-- Names that `raghaystack/components/inference.py` imports from
`raghaystack.constants`, in source order. -/
def inferenceConstantsImports : List String :=
  ["DOCUMENT_STORE_PATH", "DOCUMENT_STORE_NAME", "INDEX_STATE_JSON_PATH"]

/-- Python `from module import names`: the first requested name the
module does not define raises `ImportError`. -/
def importFrom (exports : List String) (names : List String) :
    Except PyError Unit :=
  match names.find? (fun n => !(exports.contains n)) with
  | some n => Except.error (PyError.importError n)
  | none => Except.ok ()

/-- Loading `raghaystack/components/inference.py`: its `from
raghaystack.constants import ...` statement resolved against what the
constants module actually exports. -/
def importInferenceModule : Except PyError Unit :=
  importFrom constantsModuleExports inferenceConstantsImports

/-- Running the inference module as a script: the module body (its
imports) runs first; only if that succeeds does the `__main__` block
read the state record. -/
def inferenceCliEntry (stateFile : Option Json) : Except PyError Json :=
  match importInferenceModule with
  | Except.error e => Except.error e
  | Except.ok _ => inferenceMain stateFile

/-- Embedding of `DataIngestion.run` from
`raghaystack/components/data_ingestion.py`: run the indexing pipeline
(the pipeline stages are external components whose effect is the
populated `store`), persist the store with `save_ds`, and return the
six-field summary dictionary.  The `to_dict()` serializations of the
external components are opaque values passed as parameters. -/
def DataIngestion.run (TIMESTAMP : String)
    (document_store_dict converter_dict embedder_dict cleaner_dict splitter_dict : Json)
    (store : InMemoryDocumentStore) (fs : FS) :
    Except PyError (FS × JObj) :=
  match DataIngestion.save_ds store TIMESTAMP fs with
  | Except.error e => Except.error e
  | Except.ok (fs2, p) => Except.ok (fs2,
      [("store_path", Json.str (p.1 ++ "/" ++ p.2)),
       ("document_store", document_store_dict),
       ("converter", converter_dict),
       ("embedder", embedder_dict),
       ("cleaner", cleaner_dict),
       ("splitter", splitter_dict)])

/-! Lemmas about `getVal`, `setKey` and `pyUpdate`. -/

theorem getVal_cons_self (k : String) (v : Json) (rest : JObj) :
    getVal ((k, v) :: rest) k = some v := by
  simp [getVal]

theorem getVal_cons_ne (k1 k2 : String) (v : Json) (rest : JObj)
    (h : k1 ≠ k2) :
    getVal ((k1, v) :: rest) k2 = getVal rest k2 := by
  simp [getVal, h]

theorem replaceEntry_hit (k k1 : String) (v v1 : Json) (h : k1 = k) :
    replaceEntry k v (k1, v1) = (k, v) := by
  simp [replaceEntry, h]

theorem replaceEntry_miss (k k1 : String) (v v1 : Json) (h : ¬ k1 = k) :
    replaceEntry k v (k1, v1) = (k1, v1) := by
  simp [replaceEntry, h]

theorem getVal_map_replace_self (d : JObj) (k : String) (v : Json)
    (h : (getVal d k).isSome) :
    getVal (d.map (replaceEntry k v)) k = some v := by
  induction d with
  | nil => simp [getVal] at h
  | cons kv rest ih =>
    obtain ⟨k1, v1⟩ := kv
    by_cases hk : k1 = k
    · rw [List.map_cons, replaceEntry_hit k k1 v v1 hk, getVal_cons_self]
    · rw [getVal_cons_ne k1 k v1 rest hk] at h
      rw [List.map_cons, replaceEntry_miss k k1 v v1 hk,
        getVal_cons_ne k1 k v1 _ hk]
      exact ih h

theorem getVal_append_single_self (d : JObj) (k : String) (v : Json)
    (h : getVal d k = none) :
    getVal (d ++ [(k, v)]) k = some v := by
  induction d with
  | nil => simp [getVal]
  | cons kv rest ih =>
    obtain ⟨k1, v1⟩ := kv
    by_cases hk : k1 = k
    · rw [hk, getVal_cons_self k v1 rest] at h
      exact absurd h (by simp)
    · rw [getVal_cons_ne k1 k v1 rest hk] at h
      rw [List.cons_append, getVal_cons_ne k1 k v1 _ hk]
      exact ih h

theorem getVal_map_replace_ne (d : JObj) (k k2 : String) (v : Json)
    (h : k2 ≠ k) :
    getVal (d.map (replaceEntry k v)) k2 = getVal d k2 := by
  induction d with
  | nil => simp [getVal]
  | cons kv rest ih =>
    obtain ⟨k1, v1⟩ := kv
    by_cases hk : k1 = k
    · have h2 : k ≠ k2 := fun e => h e.symm
      rw [List.map_cons, replaceEntry_hit k k1 v v1 hk,
        getVal_cons_ne k k2 v _ h2, hk,
        getVal_cons_ne k k2 v1 rest h2]
      exact ih
    · rw [List.map_cons, replaceEntry_miss k k1 v v1 hk]
      by_cases hk2 : k1 = k2
      · rw [hk2, getVal_cons_self, getVal_cons_self]
      · rw [getVal_cons_ne k1 k2 v1 _ hk2, getVal_cons_ne k1 k2 v1 rest hk2]
        exact ih

theorem getVal_append_single_ne (d : JObj) (k k2 : String) (v : Json)
    (h : k2 ≠ k) :
    getVal (d ++ [(k, v)]) k2 = getVal d k2 := by
  induction d with
  | nil =>
    have h2 : k ≠ k2 := fun e => h e.symm
    simp [getVal, h2]
  | cons kv rest ih =>
    obtain ⟨k1, v1⟩ := kv
    by_cases hk2 : k1 = k2
    · rw [hk2, List.cons_append, getVal_cons_self, getVal_cons_self]
    · rw [List.cons_append, getVal_cons_ne k1 k2 v1 _ hk2,
        getVal_cons_ne k1 k2 v1 rest hk2]
      exact ih

theorem getVal_setKey_self (d : JObj) (k : String) (v : Json) :
    getVal (setKey d k v) k = some v := by
  unfold setKey
  by_cases h : (getVal d k).isSome
  · simpa [h] using getVal_map_replace_self d k v h
  · have h0 : getVal d k = none := Option.not_isSome_iff_eq_none.mp h
    simpa [h] using getVal_append_single_self d k v h0

theorem getVal_setKey_ne (d : JObj) (k k2 : String) (v : Json)
    (h : k2 ≠ k) :
    getVal (setKey d k v) k2 = getVal d k2 := by
  unfold setKey
  by_cases hs : (getVal d k).isSome
  · simpa [hs] using getVal_map_replace_ne d k k2 v h
  · simpa [hs] using getVal_append_single_ne d k k2 v h

theorem getVal_pyUpdate_none (u : JObj) (k : String)
    (h : getVal u k = none) :
    ∀ d, getVal (pyUpdate d u) k = getVal d k := by
  induction u with
  | nil => intro d; rfl
  | cons kv rest ih =>
    obtain ⟨k1, v1⟩ := kv
    intro d
    have hk : k1 ≠ k := by
      intro e
      rw [e, getVal_cons_self k v1 rest] at h
      exact absurd h (by simp)
    have hrest : getVal rest k = none := by
      rwa [getVal_cons_ne k1 k v1 rest hk] at h
    simp only [pyUpdate]
    rw [ih hrest, getVal_setKey_ne d k1 k v1 (Ne.symm hk)]

theorem getVal_eq_none_of_not_mem (u : JObj) (k : String)
    (h : k ∉ u.map Prod.fst) : getVal u k = none := by
  induction u with
  | nil => rfl
  | cons kv rest ih =>
    obtain ⟨k1, v1⟩ := kv
    simp only [List.map_cons, List.mem_cons] at h
    push_neg at h
    have hk : k1 ≠ k := fun e => h.1 e.symm
    rw [getVal_cons_ne k1 k v1 rest hk]
    exact ih h.2

theorem getVal_pyUpdate_some (u : JObj) (k : String) (v : Json)
    (hn : (u.map Prod.fst).Nodup) (h : getVal u k = some v) :
    ∀ d, getVal (pyUpdate d u) k = some v := by
  induction u with
  | nil => simp [getVal] at h
  | cons kv rest ih =>
    obtain ⟨k1, v1⟩ := kv
    simp only [List.map_cons, List.nodup_cons] at hn
    intro d
    by_cases hk : k1 = k
    · rw [hk, getVal_cons_self k v1 rest] at h
      have hout : getVal rest k = none := by
        rw [← hk]
        exact getVal_eq_none_of_not_mem rest k1 (hk ▸ hn.1)
      simp only [pyUpdate]
      rw [getVal_pyUpdate_none rest k hout, hk, getVal_setKey_self]
      exact h
    · have hrest : getVal rest k = some v := by
        rwa [getVal_cons_ne k1 k v1 rest hk] at h
      simp only [pyUpdate]
      exact ih hn.2 hrest (setKey d k1 v1)

theorem map_fst_map_replace (d : JObj) (k : String) (v : Json) :
    (d.map (replaceEntry k v)).map Prod.fst = d.map Prod.fst := by
  induction d with
  | nil => rfl
  | cons kv rest ih =>
    obtain ⟨k1, v1⟩ := kv
    by_cases hk : k1 = k
    · rw [List.map_cons, replaceEntry_hit k k1 v v1 hk, List.map_cons,
        List.map_cons, ih]
      simp [hk]
    · rw [List.map_cons, replaceEntry_miss k k1 v v1 hk, List.map_cons,
        List.map_cons, ih]

theorem mem_keys_setKey (d : JObj) (k k0 : String) (v : Json)
    (h : k0 ∈ d.map Prod.fst) : k0 ∈ (setKey d k v).map Prod.fst := by
  unfold setKey
  by_cases hs : (getVal d k).isSome
  · rw [if_pos hs, map_fst_map_replace]
    exact h
  · rw [if_neg hs, List.map_append]
    exact List.mem_append_left _ h

theorem mem_keys_pyUpdate (u : JObj) (k0 : String) :
    ∀ d, k0 ∈ d.map Prod.fst → k0 ∈ (pyUpdate d u).map Prod.fst := by
  induction u with
  | nil => intro d h; exact h
  | cons kv rest ih =>
    obtain ⟨k1, v1⟩ := kv
    intro d h
    simp only [pyUpdate]
    exact ih (setKey d k1 v1) (mem_keys_setKey d k1 k0 v1 h)

/-- All entries of `m` carrying key `k` hold the value `v`, and the key is
present.  Once this holds, assigning `d[k] = v` again is the identity. -/
def keyFixed (m : JObj) (k : String) (v : Json) : Prop :=
  (∀ p ∈ m, p.1 = k → p.2 = v) ∧ (getVal m k).isSome

theorem not_key_of_getVal_none (d : JObj) (k : String)
    (h : getVal d k = none) : ∀ p ∈ d, p.1 ≠ k := by
  induction d with
  | nil => intro p hp; exact absurd hp (List.not_mem_nil p)
  | cons kv rest ih =>
    obtain ⟨k1, v1⟩ := kv
    have hk : k1 ≠ k := by
      intro e
      rw [e, getVal_cons_self k v1 rest] at h
      exact absurd h (by simp)
    have hrest : getVal rest k = none := by
      rwa [getVal_cons_ne k1 k v1 rest hk] at h
    intro p hp
    rcases List.mem_cons.mp hp with h1 | h2
    · rw [h1]; exact hk
    · exact ih hrest p h2

theorem keyFixed_setKey_self (d : JObj) (k : String) (v : Json) :
    keyFixed (setKey d k v) k v := by
  constructor
  · unfold setKey
    by_cases hs : (getVal d k).isSome
    · rw [if_pos hs]
      intro p hp hpk
      obtain ⟨kv, hkv, hrepl⟩ := List.mem_map.mp hp
      obtain ⟨k1, v1⟩ := kv
      by_cases hk : k1 = k
      · rw [replaceEntry_hit k k1 v v1 hk] at hrepl
        rw [← hrepl]
      · rw [replaceEntry_miss k k1 v v1 hk] at hrepl
        rw [← hrepl] at hpk
        exact absurd hpk hk
    · rw [if_neg hs]
      have h0 : getVal d k = none := Option.not_isSome_iff_eq_none.mp hs
      intro p hp hpk
      rcases List.mem_append.mp hp with h1 | h2
      · exact absurd hpk (not_key_of_getVal_none d k h0 p h1)
      · rcases List.mem_singleton.mp h2 with rfl
        rfl
  · rw [getVal_setKey_self]
    rfl

theorem keyFixed_setKey_ne (m : JObj) (k k2 : String) (v w : Json)
    (hne : k2 ≠ k) (hf : keyFixed m k v) :
    keyFixed (setKey m k2 w) k v := by
  constructor
  · unfold setKey
    by_cases hs : (getVal m k2).isSome
    · rw [if_pos hs]
      intro p hp hpk
      obtain ⟨kv, hkv, hrepl⟩ := List.mem_map.mp hp
      obtain ⟨k1, v1⟩ := kv
      by_cases hk : k1 = k2
      · rw [replaceEntry_hit k2 k1 w v1 hk] at hrepl
        rw [← hrepl] at hpk
        exact absurd hpk hne
      · rw [replaceEntry_miss k2 k1 w v1 hk] at hrepl
        rw [← hrepl] at hpk ⊢
        exact hf.1 (k1, v1) hkv hpk
    · rw [if_neg hs]
      intro p hp hpk
      rcases List.mem_append.mp hp with h1 | h2
      · exact hf.1 p h1 hpk
      · rcases List.mem_singleton.mp h2 with rfl
        exact absurd hpk hne
  · rw [getVal_setKey_ne m k2 k w (fun e => hne e.symm)]
    exact hf.2

theorem keyFixed_pyUpdate (u : JObj) (k : String) (v : Json)
    (hu : getVal u k = none) :
    ∀ m, keyFixed m k v → keyFixed (pyUpdate m u) k v := by
  induction u with
  | nil => intro m hf; exact hf
  | cons kv rest ih =>
    obtain ⟨k1, v1⟩ := kv
    have hk : k1 ≠ k := by
      intro e
      rw [e, getVal_cons_self k v1 rest] at hu
      exact absurd hu (by simp)
    have hrest : getVal rest k = none := by
      rwa [getVal_cons_ne k1 k v1 rest hk] at hu
    intro m hf
    simp only [pyUpdate]
    exact ih hrest (setKey m k1 v1) (keyFixed_setKey_ne m k k1 v v1 hk hf)

theorem setKey_eq_of_keyFixed (m : JObj) (k : String) (v : Json)
    (hf : keyFixed m k v) : setKey m k v = m := by
  unfold setKey
  rw [if_pos hf.2]
  have hcongr : ∀ kv ∈ m, replaceEntry k v kv = kv := by
    intro kv hkv
    obtain ⟨k1, v1⟩ := kv
    by_cases hk : k1 = k
    · rw [replaceEntry_hit k k1 v v1 hk]
      have hv : v1 = v := hf.1 (k1, v1) hkv hk
      rw [hk, hv]
    · exact replaceEntry_miss k k1 v v1 hk
  calc m.map (replaceEntry k v) = m.map id := List.map_congr_left hcongr
    _ = m := List.map_id m

theorem pyUpdate_idem (u : JObj) (hn : (u.map Prod.fst).Nodup) :
    ∀ d, pyUpdate (pyUpdate d u) u = pyUpdate d u := by
  induction u with
  | nil => intro d; rfl
  | cons kv rest ih =>
    obtain ⟨k, v⟩ := kv
    simp only [List.map_cons, List.nodup_cons] at hn
    intro d
    simp only [pyUpdate]
    have hfix : keyFixed (pyUpdate (setKey d k v) rest) k v :=
      keyFixed_pyUpdate rest k v
        (getVal_eq_none_of_not_mem rest k hn.1)
        (setKey d k v) (keyFixed_setKey_self d k v)
    rw [setKey_eq_of_keyFixed _ k v hfix]
    exact ih hn.2 (setKey d k v)

/-! Lemmas about the drivers. -/

theorem store_dict_as_json_some (u c : JObj) :
    store_dict_as_json u (some c) = pyUpdate c u := rfl

theorem store_dict_as_json_none (u : JObj) :
    store_dict_as_json u none = pyUpdate initRecord u := rfl

theorem save_ds_eq (store : InMemoryDocumentStore) (ts : String) (fs : FS) :
    ∃ ds : List String, DOCUMENT_STORE_PATH ts ∈ ds ∧
      DataIngestion.save_ds store ts fs =
        Except.ok
          (⟨ds, ((DOCUMENT_STORE_PATH ts, DOCUMENT_STORE_NAME),
              store.docs) :: fs.files⟩,
           (DOCUMENT_STORE_PATH ts, DOCUMENT_STORE_NAME)) := by
  unfold DataIngestion.save_ds
  by_cases h : DOCUMENT_STORE_PATH ts ∈ fs.dirs
  · refine ⟨fs.dirs, h, ?_⟩
    simp [InMemoryDocumentStore.save_to_disk, h]
  · refine ⟨DOCUMENT_STORE_PATH ts :: fs.dirs, List.mem_cons_self _ _, ?_⟩
    simp [InMemoryDocumentStore.save_to_disk, h]

theorem runCalls_some_keys (updates : List JObj) :
    ∀ c : JObj, (∀ k ∈ initRecord.map Prod.fst, k ∈ c.map Prod.fst) →
      ∃ c2, runCalls updates (some c) = some c2 ∧
        ∀ k ∈ initRecord.map Prod.fst, k ∈ c2.map Prod.fst := by
  induction updates with
  | nil => intro c h; exact ⟨c, rfl, h⟩
  | cons u rest ih =>
    intro c h
    have h2 : ∀ k ∈ initRecord.map Prod.fst, k ∈ (pyUpdate c u).map Prod.fst :=
      fun k hk => mem_keys_pyUpdate u k c (h k hk)
    obtain ⟨c2, hc2, hk2⟩ := ih (pyUpdate c u) h2
    exact ⟨c2, hc2, hk2⟩

/-! The claims. -/

/-- C1: for every dictionary `update` and path: when no file exists,
`store_dict_as_json` first creates the fixed-key record
(`initRecord`), then reads the file back and shallow-merges `update`
into it, so the final file content is the prior content (or
`initRecord` when the file was absent) with every key of `update`
overwritten by its value in `update`, other keys untouched. -/
theorem store_dict_as_json_merge_spec (update : JObj) (file : Option JObj)
    (hn : (update.map Prod.fst).Nodup) :
    (∀ k v, getVal update k = some v →
        getVal (store_dict_as_json update file) k = some v) ∧
    (∀ k, getVal update k = none →
        getVal (store_dict_as_json update file) k =
          getVal (file.getD initRecord) k) := by
  constructor
  · intro k v h
    cases file with
    | none => exact getVal_pyUpdate_some update k v hn h initRecord
    | some c => exact getVal_pyUpdate_some update k v hn h c
  · intro k h
    cases file with
    | none => exact getVal_pyUpdate_none update k h initRecord
    | some c => exact getVal_pyUpdate_none update k h c

/-- Witness for C1 at the update {"store_path": 1} on an absent file. -/
theorem store_dict_as_json_merge_spec_witness :
    (([("store_path", Json.num 1)] : JObj).map Prod.fst).Nodup ∧
    getVal (store_dict_as_json [("store_path", Json.num 1)] none)
      "store_path" = some (Json.num 1) :=
  ⟨by decide,
   (store_dict_as_json_merge_spec [("store_path", Json.num 1)] none
     (by decide)).1 "store_path" (Json.num 1) rfl⟩

/-- C2: on an existing file, every key of the stored record that is not a
key of the update keeps its value; in particular file {"a":1,"b":2}
merged with update {"b":3} gives exactly {"a":1,"b":3}. -/
theorem store_dict_as_json_preserves_unrelated_keys (d update : JObj)
    (k : String) (h : getVal update k = none) :
    getVal (store_dict_as_json update (some d)) k = getVal d k ∧
    store_dict_as_json [("b", Json.num 3)]
        (some [("a", Json.num 1), ("b", Json.num 2)]) =
      [("a", Json.num 1), ("b", Json.num 3)] := by
  constructor
  · exact getVal_pyUpdate_none update k h d
  · rfl

/-- Witness for C2 at file {"a":1}, update {"b":3}, key "a". -/
theorem store_dict_as_json_preserves_unrelated_keys_witness :
    getVal [("b", Json.num 3)] "a" = none ∧
    getVal (store_dict_as_json [("b", Json.num 3)]
      (some [("a", Json.num 1)])) "a" = getVal [("a", Json.num 1)] "a" :=
  ⟨rfl,
   (store_dict_as_json_preserves_unrelated_keys [("a", Json.num 1)]
     [("b", Json.num 3)] "a" rfl).1⟩

/-- C3: `store_dict_as_json` is idempotent for repeated identical merges:
applying the same update to the file content left by a first application
yields that same file content. -/
theorem store_dict_as_json_idempotent (update : JObj) (file : Option JObj)
    (hn : (update.map Prod.fst).Nodup) :
    store_dict_as_json update (some (store_dict_as_json update file)) =
      store_dict_as_json update file := by
  cases file with
  | none => exact pyUpdate_idem update hn initRecord
  | some c => exact pyUpdate_idem update hn c

/-- Witness for C3 at the update {"a":1} on an absent file. -/
theorem store_dict_as_json_idempotent_witness :
    (([("a", Json.num 1)] : JObj).map Prod.fst).Nodup ∧
    store_dict_as_json [("a", Json.num 1)]
        (some (store_dict_as_json [("a", Json.num 1)] none)) =
      store_dict_as_json [("a", Json.num 1)] none :=
  ⟨by decide,
   store_dict_as_json_idempotent [("a", Json.num 1)] none (by decide)⟩

/-- C4: `load_json_as_dict` never raises: on an absent file it returns the
not-found signal `None` and prints a diagnostic naming the missing file;
on an existing file it returns the parsed content. -/
theorem load_json_as_dict_never_raises (filename : String)
    (file : Option Json) :
    (load_json_as_dict filename file).1 = Except.ok file ∧
    (load_json_as_dict filename file).2 =
      (if file.isNone then ["File \x27" ++ filename ++ "\x27 not found."]
       else []) := by
  cases file with
  | none => exact ⟨rfl, rfl⟩
  | some j => exact ⟨rfl, rfl⟩

/-- C5 counterexample: the duplicate ingestion driver
(`rag-haystack/components/data_ingestion.py`) performs no directory
creation in `save_ds`, so from a filesystem in which the target
directory is absent it fails with FileNotFoundError instead of
succeeding; the claim therefore does not hold for both implementations. -/
theorem save_ds_alt_missing_dir_fails :
    DataIngestionAlt.save_ds ⟨[]⟩ ⟨[], []⟩ =
      Except.error
        (PyError.fileNotFoundError "./artifacts/document_store") := rfl

/-- C5 (amended): in the `raghaystack` ingestion driver, `save_ds`
creates the missing target directory before writing the snapshot, so it
succeeds from every filesystem state in which the directory is absent;
the `rag-haystack` duplicate performs no directory creation and fails
there. -/
theorem save_ds_creates_missing_directory (store : InMemoryDocumentStore)
    (ts : String) (fs : FS) (_h : DOCUMENT_STORE_PATH ts ∉ fs.dirs) :
    ∃ fs2 p, DataIngestion.save_ds store ts fs = Except.ok (fs2, p) ∧
      DOCUMENT_STORE_PATH ts ∈ fs2.dirs := by
  obtain ⟨ds, hds, heq⟩ := save_ds_eq store ts fs
  exact ⟨_, _, heq, hds⟩

/-- Witness for C5 (amended) on the empty filesystem. -/
theorem save_ds_creates_missing_directory_witness :
    DOCUMENT_STORE_PATH "t" ∉ (⟨[], []⟩ : FS).dirs ∧
    ∃ fs2 p, DataIngestion.save_ds ⟨[]⟩ "t" ⟨[], []⟩ =
        Except.ok (fs2, p) ∧
      DOCUMENT_STORE_PATH "t" ∈ fs2.dirs :=
  ⟨List.not_mem_nil _,
   save_ds_creates_missing_directory ⟨[]⟩ "t" ⟨[], []⟩ (List.not_mem_nil _)⟩

/-- C6: starting with no file, after any nonempty sequence of
`store_dict_as_json` calls the state file exists and contains at least
the six fixed keys, and the dictionary returned by `DataIngestion.run`
has exactly those six top-level keys. -/
theorem state_record_six_keys :
    (∀ us : List JObj, us ≠ [] →
      ∃ c, runCalls us none = some c ∧
        ∀ k ∈ initRecord.map Prod.fst, k ∈ c.map Prod.fst) ∧
    (∀ ts dsd cvd emd cld spd store fs, ∃ fs2 rec,
      DataIngestion.run ts dsd cvd emd cld spd store fs =
        Except.ok (fs2, rec) ∧
      rec.map Prod.fst = ["store_path", "document_store", "converter",
        "embedder", "cleaner", "splitter"]) := by
  constructor
  · intro us hne
    cases us with
    | nil => exact absurd rfl hne
    | cons u rest =>
      have h0 : ∀ k ∈ initRecord.map Prod.fst,
          k ∈ (pyUpdate initRecord u).map Prod.fst :=
        fun k hk => mem_keys_pyUpdate u k initRecord hk
      exact runCalls_some_keys rest (pyUpdate initRecord u) h0
  · intro ts dsd cvd emd cld spd store fs
    obtain ⟨ds, hds, heq⟩ := save_ds_eq store ts fs
    refine ⟨⟨ds, ((DOCUMENT_STORE_PATH ts, DOCUMENT_STORE_NAME),
        store.docs) :: fs.files⟩,
      [("store_path",
          Json.str (DOCUMENT_STORE_PATH ts ++ "/" ++ DOCUMENT_STORE_NAME)),
       ("document_store", dsd), ("converter", cvd), ("embedder", emd),
       ("cleaner", cld), ("splitter", spd)], ?_, rfl⟩
    unfold DataIngestion.run
    rw [heq]

/-- Witness for C6 at the one-call sequence [{"x": null}]. -/
theorem state_record_six_keys_witness :
    ([([("x", Json.null)] : JObj)] ≠ ([] : List JObj)) ∧
    ∃ c, runCalls [[("x", Json.null)]] none = some c ∧
      ∀ k ∈ initRecord.map Prod.fst, k ∈ c.map Prod.fst :=
  ⟨List.cons_ne_nil _ _,
   state_record_six_keys.1 [[("x", Json.null)]] (List.cons_ne_nil _ _)⟩

/-- C7: the ingestion pipeline registers exactly the five stages
converter, cleaner, splitter, embedder, writer and connects them in that
linear order; the inference pipeline registers exactly the four stages
retriever, query_embedder, prompt_builder, llm and declares exactly the
three edges query_embedder.embedding to retriever.query_embedding,
retriever.documents to prompt_builder.documents, and prompt_builder to
llm.prompt; no other stages or edges are declared. -/
theorem pipelines_linear_wiring :
    DataIngestion.get_indexing_pipeline.components =
      ["converter", "cleaner", "splitter", "embedder", "writer"] ∧
    DataIngestion.get_indexing_pipeline.connections =
      [("converter", "cleaner"), ("cleaner", "splitter"),
       ("splitter", "embedder"), ("embedder", "writer")] ∧
    Inference.get_pipeline.components =
      ["retriever", "query_embedder", "prompt_builder", "llm"] ∧
    Inference.get_pipeline.connections =
      [("query_embedder.embedding", "retriever.query_embedding"),
       ("retriever.documents", "prompt_builder.documents"),
       ("prompt_builder", "llm.prompt")] :=
  ⟨rfl, rfl, rfl, rfl⟩

/-- C8 counterexample: when the state-record file is absent, the
inference entry point fails by subscripting the `None` returned by
`load_json_as_dict`, a TypeError, not a NotFound error. -/
theorem inference_main_absent_state_not_notfound :
    inferenceMain none =
      Except.error (PyError.typeError
        "\x27NoneType\x27 object is not subscriptable") ∧
    inferenceMain none ≠
      Except.error (PyError.fileNotFoundError INDEX_STATE_JSON_PATH) :=
  ⟨rfl, fun h => PyError.noConfusion (Except.error.inj h)⟩

/-- C8 (amended): constructing the inference driver on a store path with
no file fails with FileNotFoundError; the entry point, when the state
record file is absent, fails with a TypeError from subscripting the
`None` returned by `load_json_as_dict`, not with a NotFound error. -/
theorem inference_failure_modes (p : String × String) (fs : FS)
    (h : fsRead fs.files p = none) :
    Inference.init p fs =
      Except.error (PyError.fileNotFoundError (p.1 ++ "/" ++ p.2)) ∧
    inferenceMain none =
      Except.error (PyError.typeError
        "\x27NoneType\x27 object is not subscriptable") := by
  constructor
  · unfold Inference.init InMemoryDocumentStore.load_from_disk
    rw [h]
  · rfl

/-- Witness for C8 (amended) on the empty filesystem at path (a, b). -/
theorem inference_failure_modes_witness :
    fsRead (⟨[], []⟩ : FS).files ("a", "b") = none ∧
    Inference.init ("a", "b") ⟨[], []⟩ =
      Except.error (PyError.fileNotFoundError "a/b") :=
  ⟨rfl, (inference_failure_modes ("a", "b") ⟨[], []⟩ rfl).1⟩

/-- C9: persisting a populated store with `save_ds` and reloading the
written snapshot with `load_ds` yields a store with exactly as many
documents, with identical identifiers, content and embedding vectors. -/
theorem document_store_roundtrip (store : InMemoryDocumentStore)
    (ts : String) (fs : FS) :
    ∃ fs2 p loaded,
      DataIngestion.save_ds store ts fs = Except.ok (fs2, p) ∧
      DataIngestion.load_ds p fs2 = Except.ok loaded ∧
      loaded.docs.length = store.docs.length ∧
      loaded.docs.map Document.id = store.docs.map Document.id ∧
      loaded.docs.map Document.content = store.docs.map Document.content ∧
      loaded.docs.map Document.embedding =
        store.docs.map Document.embedding := by
  obtain ⟨ds, hds, heq⟩ := save_ds_eq store ts fs
  refine ⟨_, _, ⟨store.docs⟩, heq, ?_, rfl, rfl, rfl, rfl⟩
  unfold DataIngestion.load_ds InMemoryDocumentStore.load_from_disk
  simp [fsRead]

/-- C10: the inference module cannot be loaded: it imports
`INDEX_STATE_JSON_PATH` from the constants module, which exports only
TIMESTAMP, DOCUMENT_STORE_PATH and DOCUMENT_STORE_NAME, so the module
raises ImportError at load time and the CLI entry point fails with that
ImportError for every state-file content, before any query is
answered. -/
theorem inference_import_unreachable :
    "INDEX_STATE_JSON_PATH" ∈ inferenceConstantsImports ∧
    "INDEX_STATE_JSON_PATH" ∉ constantsModuleExports ∧
    importInferenceModule =
      Except.error (PyError.importError "INDEX_STATE_JSON_PATH") ∧
    ∀ stateFile, inferenceCliEntry stateFile =
      Except.error (PyError.importError "INDEX_STATE_JSON_PATH") := by
  refine ⟨by decide, by decide, rfl, ?_⟩
  intro stateFile
  rfl
